import Mathlib

namespace SWCanvas

/-
Verification of the SWCanvas pixel-level primitives.

Shallow embedding of the JavaScript sources:
  - src/BitBuffer.js        (the spec calls it PackedBitStorage)
  - src/ClipMask.js         (the spec calls it VisibilityMask)
  - src/unnamed/part_000    (the Color class / PremultipliedColor)
  - src/unnamed/part_001    (the ColorParser class)

Modelling conventions:
  - A Uint8Array is a `List ℕ` of bytes; well-formed states have length
    `numBytes` and every byte `< 256` (`BitBuffer.WF`).
  - JavaScript numbers used by the Color class are modelled as exact
    rationals `ℚ` (all values arising there are small integers and
    rationals that double-precision floats represent exactly, except the
    divisions, whose subsequent `Math.round` is modelled exactly
    on `ℚ`); stored color components are integers `ℤ`.
  - `Math.round x` is `⌊x + 1/2⌋` (JS rounds half toward +∞).
  - JS functions that `throw` are modelled with `Except String`,
    carrying the exact message thrown by the source.
-/

deriving instance DecidableEq for Except

/-- JS `Math.round`: rounds half toward positive infinity, i.e. `⌊x + 1/2⌋`. -/
def jsRound (q : ℚ) : ℤ := ⌊q + 1 / 2⌋

/-! ## BitBuffer (src/BitBuffer.js) -/

/-- State of a `BitBuffer`: the fields `_width`, `_height`, `_defaultValue`
and the `Uint8Array` `_buffer` (a list of bytes).  `_numPixels` and
`_numBytes` are derived (see below) exactly as the constructor computes
them. -/
structure BitBuffer where
  width : ℕ
  height : ℕ
  defaultValue : ℕ
  buffer : List ℕ
deriving DecidableEq, Repr

/-- `this._numPixels = width * height`. -/
def BitBuffer.numPixels (b : BitBuffer) : ℕ := b.width * b.height

/-- `this._numBytes = Math.ceil(this._numPixels / 8)`. -/
def BitBuffer.numBytes (b : BitBuffer) : ℕ := (b.numPixels + 7) / 8

/-- `_initializeToDefault` acting on a buffer of length `len`:
if `_defaultValue === 1`, fill with `0xFF` and overwrite the last byte with
`(1 << remainderBits) - 1` when `numPixels % 8 !== 0`; otherwise fill
with `0`.  (`len` is the length of the existing `Uint8Array`, which is
always `numBytes` in the source.) -/
def initializeToDefault (len np nb dv : ℕ) : List ℕ :=
  if dv = 1 then
    let base := List.replicate len 255
    if np % 8 ≠ 0 then base.set (nb - 1) ((1 <<< (np % 8)) - 1) else base
  else
    List.replicate len 0

/-- The `BitBuffer` constructor.  Width and height must be positive
integers (integrality is inherent in the `ℤ` argument type; the
`typeof`/`Number.isInteger` checks of the source cannot fail here), and
`defaultValue` must be `0` or `1`.  Allocates `numBytes` bytes and
initializes them to the default. -/
def mkBitBuffer (width height defaultValue : ℤ) : Except String BitBuffer :=
  if width ≤ 0 then .error "BitBuffer width must be a positive integer"
  else if height ≤ 0 then .error "BitBuffer height must be a positive integer"
  else if defaultValue ≠ 0 ∧ defaultValue ≠ 1 then
    .error "BitBuffer defaultValue must be 0 or 1"
  else
    let w := width.toNat
    let h := height.toNat
    let np := w * h
    let nb := (np + 7) / 8
    .ok ⟨w, h, defaultValue.toNat, initializeToDefault nb np nb defaultValue.toNat⟩

/-- `_getBit(pixelIndex)`: returns `0` when `byteIndex` is past the end of
the buffer, otherwise `(buffer[byteIndex] & (1 << bitIndex)) !== 0 ? 1 : 0`. -/
def getBit (buf : List ℕ) (pixelIndex : ℕ) : ℕ :=
  let byteIndex := pixelIndex / 8
  let bitIndex := pixelIndex % 8
  if buf.length ≤ byteIndex then 0
  else if (buf.getD byteIndex 0) &&& (1 <<< bitIndex) ≠ 0 then 1 else 0

/-- `_setBit(pixelIndex, value)`: no-op past the end of the buffer,
otherwise sets (`|=`) or clears (`&= ~(1 << bitIndex)`) the addressed bit.
For a byte `< 256`, the JS `& ~(1 << b)` under `Uint8Array` truncation
equals `&&& (255 ^^^ (1 <<< b))`. -/
def setBit (buf : List ℕ) (pixelIndex value : ℕ) : List ℕ :=
  let byteIndex := pixelIndex / 8
  let bitIndex := pixelIndex % 8
  if buf.length ≤ byteIndex then buf
  else if value ≠ 0 then
    buf.set byteIndex ((buf.getD byteIndex 0) ||| (1 <<< bitIndex))
  else
    buf.set byteIndex ((buf.getD byteIndex 0) &&& (255 ^^^ (1 <<< bitIndex)))

/-- `getPixel(x, y)`: `false` out of bounds, else `_getBit(y*width+x) === 1`. -/
def BitBuffer.getPixel (b : BitBuffer) (x y : ℤ) : Bool :=
  if x < 0 ∨ (b.width : ℤ) ≤ x ∨ y < 0 ∨ (b.height : ℤ) ≤ y then false
  else getBit b.buffer (y * b.width + x).toNat == 1

/-- `setPixel(x, y, value)`: ignored out of bounds, else
`_setBit(y*width+x, value ? 1 : 0)`. -/
def BitBuffer.setPixel (b : BitBuffer) (x y : ℤ) (value : Bool) : BitBuffer :=
  if x < 0 ∨ (b.width : ℤ) ≤ x ∨ y < 0 ∨ (b.height : ℤ) ≤ y then b
  else { b with buffer := setBit b.buffer (y * b.width + x).toNat (if value then 1 else 0) }

/-- `clear()`: `this._buffer.fill(0)`. -/
def BitBuffer.clear (b : BitBuffer) : BitBuffer :=
  { b with buffer := List.replicate b.buffer.length 0 }

/-- `fill()`: `this._buffer.fill(0xFF)` then mask the partial last byte
with `(1 << remainderBits) - 1` when `numPixels % 8 !== 0`. -/
def BitBuffer.fill (b : BitBuffer) : BitBuffer :=
  let base := List.replicate b.buffer.length 255
  let buf := if b.numPixels % 8 ≠ 0 then base.set (b.numBytes - 1) ((1 <<< (b.numPixels % 8)) - 1) else base
  { b with buffer := buf }

/-- `reset()`: `this._initializeToDefault()`. -/
def BitBuffer.reset (b : BitBuffer) : BitBuffer :=
  { b with buffer := initializeToDefault b.buffer.length b.numPixels b.numBytes b.defaultValue }

/-- `and(other)`: dimension check, then byte-wise `&=` over the
`numBytes` bytes (both buffers have length `numBytes` in well-formed
states, so this is `List.zipWith`). -/
def BitBuffer.and (b other : BitBuffer) : Except String BitBuffer :=
  if other.width ≠ b.width ∨ other.height ≠ b.height then
    .error "BitBuffer dimensions must match for AND operation"
  else
    .ok { b with buffer := List.zipWith (fun x y => x &&& y) b.buffer other.buffer }

/-- `copyFrom(other)`: dimension check, then `this._buffer.set(other._buffer)`
(byte-for-byte replacement). -/
def BitBuffer.copyFrom (b other : BitBuffer) : Except String BitBuffer :=
  if other.width ≠ b.width ∨ other.height ≠ b.height then
    .error "BitBuffer dimensions must match for copy operation"
  else
    .ok { b with buffer := other.buffer }

/-- `isEmpty()`: every byte is `0`. -/
def BitBuffer.isEmpty (b : BitBuffer) : Bool :=
  b.buffer.all (fun byte => byte == 0)

/-- `equals(other)`: equal dimensions and byte-for-byte equal buffers
(the source loop compares the `numBytes` entries; in well-formed states
both buffers have exactly that length, so this is list equality). -/
def BitBuffer.equals (b other : BitBuffer) : Bool :=
  b.width == other.width && b.height == other.height && b.buffer == other.buffer

/-- Well-formed `BitBuffer` state: the `Uint8Array` has its allocated
length `numBytes` and holds bytes (`< 256`).  Every state produced by the
source constructor and operations satisfies this. -/
def BitBuffer.WF (b : BitBuffer) : Prop :=
  b.buffer.length = b.numBytes ∧ ∀ byte ∈ b.buffer, byte < 256

instance (b : BitBuffer) : Decidable b.WF := by
  unfold BitBuffer.WF
  infer_instance

/-- Numeric form of the trailing-pad-bit invariant: the final byte is
below `2 ^ (numPixels - 8*(numBytes-1))`, i.e. all its bits whose linear
index reaches `numPixels` are zero.  (The exponent is the number of
in-range bits in the final byte: `numPixels % 8` when that is nonzero,
`8` for a full final byte, `0` for an empty buffer.) -/
def BitBuffer.padOK (b : BitBuffer) : Prop :=
  b.buffer.getD (b.numBytes - 1) 0 < 2 ^ (b.numPixels - 8 * (b.numBytes - 1))

instance (b : BitBuffer) : Decidable b.padOK := by
  unfold BitBuffer.padOK
  infer_instance

/-- Bit-level form of the trailing-pad-bit invariant: every bit of the
final byte whose linear index (`8*(numBytes-1) + j`) is at least
`numPixels` reads as `0`. -/
def BitBuffer.padBitsZero (b : BitBuffer) : Prop :=
  ∀ j, b.numPixels ≤ 8 * (b.numBytes - 1) + j →
    (b.buffer.getD (b.numBytes - 1) 0).testBit j = false

/-! ## ClipMask (src/ClipMask.js) -/

/-- A `ClipMask` owns exactly one `BitBuffer` (`this._bitBuffer`); its
`width`/`height` properties equal the buffer's dimensions. -/
structure ClipMask where
  bitBuffer : BitBuffer
deriving DecidableEq, Repr

/-- The `ClipMask(width, height)` constructor: `new BitBuffer(width, height, 1)`. -/
def mkClipMask (width height : ℤ) : Except String ClipMask :=
  (mkBitBuffer width height 1).map ClipMask.mk

def ClipMask.width (m : ClipMask) : ℕ := m.bitBuffer.width

def ClipMask.height (m : ClipMask) : ℕ := m.bitBuffer.height

/-- `getPixel(x, y)`: delegates to the bit buffer. -/
def ClipMask.getPixel (m : ClipMask) (x y : ℤ) : Bool :=
  m.bitBuffer.getPixel x y

/-- `setPixel(x, y, visible)`: delegates to the bit buffer. -/
def ClipMask.setPixel (m : ClipMask) (x y : ℤ) (visible : Bool) : ClipMask :=
  ⟨m.bitBuffer.setPixel x y visible⟩

/-- `intersectWith(other)`: `this._bitBuffer.and(other._bitBuffer)` (the
`instanceof` check of the source cannot fail in the typed embedding; the
dimension check lives in `BitBuffer.and`). -/
def ClipMask.intersectWith (m other : ClipMask) : Except String ClipMask :=
  (m.bitBuffer.and other.bitBuffer).map ClipMask.mk

/-- `equals(other)`: `this._bitBuffer.equals(other._bitBuffer)`. -/
def ClipMask.equals (m other : ClipMask) : Bool :=
  m.bitBuffer.equals other.bitBuffer

/-- The function returned by `createPixelWriter()`, applied to a state.
The source guard reads
`if (x < 0 || x >= this._width || y < 0 || y >= this._height) return;`
but `ClipMask` has no `_width`/`_height` fields (only `width`/`height`),
so `this._width` and `this._height` are `undefined` and the comparisons
`x >= undefined` / `y >= undefined` are always false: only `x < 0` and
`y < 0` can trigger the early return.  The subsequent
`this.setPixel(x, y, coverage > 0.5)` performs full bounds checking, so
out-of-range writes are still ignored. -/
def ClipMask.writePixel (m : ClipMask) (x y : ℤ) (coverage : ℚ) : ClipMask :=
  if x < 0 ∨ y < 0 then m
  else m.setPixel x y (coverage > 0.5)

/-! ## Color (src/unnamed/part_000) -/

/-- A `Color` stores four integer components `_r, _g, _b, _a` in
premultiplied form (`pr`, `pg`, `pb`, `pa` here). -/
structure Color where
  pr : ℤ
  pg : ℤ
  pb : ℤ
  pa : ℤ
deriving DecidableEq, Repr

/-- The `Color` constructor: validates each component against `[0, 255]`,
then either stores `Math.round` of the inputs directly (already
premultiplied) or multiplies r, g, b by `a / 255` before rounding. -/
def Color.create (r g b a : ℚ) (isPremultiplied : Bool) : Except String Color :=
  if r < 0 ∨ 255 < r ∨ g < 0 ∨ 255 < g ∨ b < 0 ∨ 255 < b ∨ a < 0 ∨ 255 < a then
    .error "Color components must be in range 0-255"
  else if isPremultiplied then
    .ok ⟨jsRound r, jsRound g, jsRound b, jsRound a⟩
  else
    let alpha := a / 255
    .ok ⟨jsRound (r * alpha), jsRound (g * alpha), jsRound (b * alpha), jsRound a⟩

/-- Straight (non-premultiplied) red view: the getter `r`. -/
def Color.r (c : Color) : ℤ :=
  if c.pa = 0 then 0
  else if c.pa = 255 then c.pr
  else jsRound ((c.pr : ℚ) * 255 / (c.pa : ℚ))

/-- Straight green view: the getter `g`. -/
def Color.g (c : Color) : ℤ :=
  if c.pa = 0 then 0
  else if c.pa = 255 then c.pg
  else jsRound ((c.pg : ℚ) * 255 / (c.pa : ℚ))

/-- Straight blue view: the getter `b`. -/
def Color.b (c : Color) : ℤ :=
  if c.pa = 0 then 0
  else if c.pa = 255 then c.pb
  else jsRound ((c.pb : ℚ) * 255 / (c.pa : ℚ))

/-- Straight alpha view: the getter `a` (returns `_a` unchanged). -/
def Color.a (c : Color) : ℤ := c.pa

/-- `get normalizedAlpha()`: `this._a / 255`. -/
def Color.normalizedAlpha (c : Color) : ℚ := (c.pa : ℚ) / 255

/-- `withGlobalAlpha(globalAlpha)`: range-checks the factor, then reads
the straight views, computes `newAlpha = Math.round(a * globalAlpha)` and
re-premultiplies through the constructor with `isPremultiplied = false`. -/
def Color.withGlobalAlpha (c : Color) (globalAlpha : ℚ) : Except String Color :=
  if globalAlpha < 0 ∨ 1 < globalAlpha then
    .error "Global alpha must be in range 0-1"
  else
    let newAlpha := jsRound ((c.a : ℚ) * globalAlpha)
    Color.create (c.r : ℚ) (c.g : ℚ) (c.b : ℚ) (newAlpha : ℚ) false

/-- `blendOver(background)`: source-over compositing in premultiplied
space; short-circuits on opaque (`_a === 255`) and transparent
(`_a === 0`) sources, otherwise rounds each
`srcP_c + bgP_c * (1 - srcAlpha)` and constructs the result as already
premultiplied. -/
def Color.blendOver (src background : Color) : Except String Color :=
  if src.pa = 255 then .ok src
  else if src.pa = 0 then .ok background
  else
    let srcAlpha := src.normalizedAlpha
    let invSrcAlpha := 1 - srcAlpha
    let newR := jsRound ((src.pr : ℚ) + (background.pr : ℚ) * invSrcAlpha)
    let newG := jsRound ((src.pg : ℚ) + (background.pg : ℚ) * invSrcAlpha)
    let newB := jsRound ((src.pb : ℚ) + (background.pb : ℚ) * invSrcAlpha)
    let newA := jsRound ((src.pa : ℚ) + (background.pa : ℚ) * invSrcAlpha)
    Color.create (newR : ℚ) (newG : ℚ) (newB : ℚ) (newA : ℚ) true

/-! ## ColorParser (src/unnamed/part_001)

Strings are modelled as `List Char` (code points; the UTF-16 length
subtleties of JS strings do not matter for the inputs of interest).
A JS number that may be `NaN` is modelled as `Option ℤ` with `none`
for `NaN` (the only arithmetic the parser performs on possibly-NaN
values is storing them). -/

/-- JS whitespace as used by `trim`, `parseInt`, `parseFloat` and the
regex class `\s` (ASCII white space, NBSP and BOM; other rare Unicode
space code points are omitted). -/
def jsWhitespace (c : Char) : Bool :=
  c = ' ' ∨ c = '\t' ∨ c = '\n' ∨ c = '\r' ∨ c = '\x0b' ∨ c = '\x0c' ∨
    c = ' ' ∨ c = '﻿'

/-- JS `String.prototype.trim`. -/
def jsTrim (cs : List Char) : List Char :=
  ((cs.dropWhile jsWhitespace).reverse.dropWhile jsWhitespace).reverse

/-- JS `String.prototype.toLowerCase` (ASCII case mapping suffices for the
inputs of interest). -/
def jsToLower (cs : List Char) : List Char :=
  cs.map Char.toLower

def isDecDigit (c : Char) : Bool := '0' ≤ c ∧ c ≤ '9'

/-- Value of a hexadecimal digit, `none` if the character is not one. -/
def hexDigitVal (c : Char) : Option ℕ :=
  if '0' ≤ c ∧ c ≤ '9' then some (c.toNat - '0'.toNat)
  else if 'a' ≤ c ∧ c ≤ 'f' then some (c.toNat - 'a'.toNat + 10)
  else if 'A' ≤ c ∧ c ≤ 'F' then some (c.toNat - 'A'.toNat + 10)
  else none

/-- An optional leading `+`/`-` sign. -/
def splitSign (cs : List Char) : ℤ × List Char :=
  match cs with
  | '-' :: rest => (-1, rest)
  | '+' :: rest => (1, rest)
  | _ => (1, cs)

def decDigitsVal (cs : List Char) : ℕ :=
  cs.foldl (fun acc c => 10 * acc + (c.toNat - '0'.toNat)) 0

def hexDigitsVal (cs : List Char) : ℕ :=
  cs.foldl (fun acc c => 16 * acc + ((hexDigitVal c).getD 0)) 0

/-- JS `parseInt(s, 16)`: skip white space, optional sign, optional
`0x`/`0X` prefix, then the longest run of hex digits; `NaN` (`none`) when
that run is empty. -/
def jsParseIntHex (cs : List Char) : Option ℤ :=
  let cs := cs.dropWhile jsWhitespace
  let (sign, cs) := splitSign cs
  let cs := match cs with
    | '0' :: 'x' :: rest => rest
    | '0' :: 'X' :: rest => rest
    | _ => cs
  let digits := cs.takeWhile (fun c => (hexDigitVal c).isSome)
  if digits.isEmpty then none
  else some (sign * (hexDigitsVal digits : ℤ))

/-- JS `parseInt(s)` with no radix argument: skip white space, optional
sign; a `0x`/`0X` prefix switches to base 16, otherwise the longest run
of decimal digits is read; `NaN` (`none`) when no digits are found. -/
def jsParseIntAuto (cs : List Char) : Option ℤ :=
  let cs := cs.dropWhile jsWhitespace
  let (sign, cs) := splitSign cs
  match cs with
  | '0' :: 'x' :: rest =>
    let digits := rest.takeWhile (fun c => (hexDigitVal c).isSome)
    if digits.isEmpty then none else some (sign * (hexDigitsVal digits : ℤ))
  | '0' :: 'X' :: rest =>
    let digits := rest.takeWhile (fun c => (hexDigitVal c).isSome)
    if digits.isEmpty then none else some (sign * (hexDigitsVal digits : ℤ))
  | cs' =>
    let digits := cs'.takeWhile isDecDigit
    if digits.isEmpty then none else some (sign * (decDigitsVal digits : ℤ))

/-- JS `parseFloat`: longest prefix of the form
`[+-]? (digits [. digits]? | . digits) ([eE] [+-]? digits)?`;
`NaN` (`none`) when no mantissa digits are found.  (The `Infinity`
literal accepted by JS `parseFloat` is not representable in `ℚ` and is
not modelled; no claim exercises it.) -/
def jsParseFloat (cs : List Char) : Option ℚ :=
  let cs := cs.dropWhile jsWhitespace
  let (sign, cs) := splitSign cs
  let ip := cs.takeWhile isDecDigit
  let cs1 := cs.dropWhile isDecDigit
  let (fp, cs2) :=
    match cs1 with
    | '.' :: rest => (rest.takeWhile isDecDigit, rest.dropWhile isDecDigit)
    | _ => ([], cs1)
  if ip.isEmpty ∧ fp.isEmpty then none
  else
    let mantissa : ℚ := (decDigitsVal ip : ℚ) + (decDigitsVal fp : ℚ) / ((10 : ℚ) ^ fp.length)
    let exp : ℤ :=
      match cs2 with
      | c :: rest =>
        if c = 'e' ∨ c = 'E' then
          let (esign, rest2) := splitSign rest
          let ed := rest2.takeWhile isDecDigit
          if ed.isEmpty then 0 else esign * (decDigitsVal ed : ℤ)
        else 0
      | [] => 0
    some ((sign : ℚ) * mantissa * (10 : ℚ) ^ exp)

/-- The `{r, g, b, a}` record returned by `ColorParser.parse`; each
component is a JS number that may be `NaN` (`none`). -/
structure ParsedRGBA where
  r : Option ℤ
  g : Option ℤ
  b : Option ℤ
  a : Option ℤ
deriving DecidableEq, Repr

/-- Opaque black, the parser's default for unknown or malformed input. -/
def opaqueBlack : ParsedRGBA := ⟨some 0, some 0, some 0, some 255⟩

/-- `_parseHex(hex)`: drop the `#`, expand 3-digit shorthand by doubling
each character, then read two-character slices with `parseInt(_, 16)` for
6- or 8-digit forms; any other length yields opaque black. -/
def ColorParser.parseHex (input : List Char) : ParsedRGBA :=
  let hex0 := input.drop 1
  let hex := if hex0.length = 3 then hex0.foldr (fun c acc => c :: c :: acc) [] else hex0
  if hex.length = 6 then
    { r := jsParseIntHex (hex.take 2)
      g := jsParseIntHex ((hex.drop 2).take 2)
      b := jsParseIntHex ((hex.drop 4).take 2)
      a := some 255 }
  else if hex.length = 8 then
    { r := jsParseIntHex (hex.take 2)
      g := jsParseIntHex ((hex.drop 2).take 2)
      b := jsParseIntHex ((hex.drop 4).take 2)
      a := jsParseIntHex ((hex.drop 6).take 2) }
  else opaqueBlack

/-- Attempt of the regex `rgba?\s*\(\s*([^)]+)\s*\)` to continue after the
literal `rgb[a]` part: `\s*`, `(`, `\s*`, then the capture group
`([^)]+)` (greedy, so it reaches the first `)` and keeps any trailing
white space), then `)`.  Returns the captture, or `none` when the match
fails at this position. -/
def rgbTail (cs : List Char) : Option (List Char) :=
  match cs.dropWhile jsWhitespace with
  | '(' :: rest =>
    let rest2 := rest.dropWhile jsWhitespace
    let content := rest2.takeWhile (fun c => c ≠ ')')
    if content.isEmpty then none
    else
      match rest2.dropWhile (fun c => c ≠ ')') with
      | ')' :: _ => some content
      | _ => none
  | _ => none

/-- Attempt of the regex at one start position: the literal `rgb`, then
`a?` (the greedy branch consuming `a` is tried first, backtracking to the
empty branch on failure), then `rgbTail`. -/
def rgbMatchAt (cs : List Char) : Option (List Char) :=
  match cs with
  | 'r' :: 'g' :: 'b' :: rest =>
    (match rest with
     | 'a' :: rest2 => (rgbTail rest2).orElse (fun _ => rgbTail rest)
     | _ => rgbTail rest)
  | _ => none

/-- JS `String.prototype.match` with the regex above: leftmost match,
scanning start positions left to right. -/
def rgbMatchSearch (cs : List Char) : Option (List Char) :=
  match rgbMatchAt cs with
  | some content => some content
  | none =>
    match cs with
    | [] => none
    | _ :: rest => rgbMatchSearch rest

/-- JS `String.prototype.split(',')`. -/
def splitComma (cs : List Char) : List (List Char) :=
  cs.foldr
    (fun c acc =>
      if c = ',' then [] :: acc
      else
        match acc with
        | h :: t => (c :: h) :: t
        | [] => [[c]])
    [[]]

/-- `_parseRGB(rgb)`: regex-match the parenthesized list, split on commas
and trim; fewer than three parts yields opaque black; r, g, b are
`parseInt` values (with `|| 0` turning `NaN` into `0`) clamped to
`[0, 255]`; alpha defaults to `255` and, when a fourth part parses as a
float, becomes `Math.round(alpha * 255)` clamped to `[0, 255]`. -/
def ColorParser.parseRGB (rgb : List Char) : ParsedRGBA :=
  match rgbMatchSearch rgb with
  | none => opaqueBlack
  | some content =>
    let parts := (splitComma content).map jsTrim
    if parts.length < 3 then opaqueBlack
    else
      let r := max 0 (min 255 ((jsParseIntAuto (parts.getD 0 [])).getD 0))
      let g := max 0 (min 255 ((jsParseIntAuto (parts.getD 1 [])).getD 0))
      let b := max 0 (min 255 ((jsParseIntAuto (parts.getD 2 [])).getD 0))
      let a : ℤ :=
        if 4 ≤ parts.length then
          match jsParseFloat (parts.getD 3 []) with
          | some alpha => max 0 (min 255 (jsRound (alpha * 255)))
          | none => 255
        else 255
      ⟨some r, some g, some b, some a⟩

/-- The CSS named-color table `_namedColors` (complete MDN set from the
source). -/
def namedColors : List (String × ℤ × ℤ × ℤ) :=
  [("black", 0, 0, 0), ("silver", 192, 192, 192), ("gray", 128, 128, 128),
   ("white", 255, 255, 255), ("maroon", 128, 0, 0), ("red", 255, 0, 0),
   ("purple", 128, 0, 128), ("fuchsia", 255, 0, 255), ("green", 0, 128, 0),
   ("lime", 0, 255, 0), ("olive", 128, 128, 0), ("yellow", 255, 255, 0),
   ("navy", 0, 0, 128), ("blue", 0, 0, 255), ("teal", 0, 128, 128),
   ("aqua", 0, 255, 255),
   ("aliceblue", 240, 248, 255), ("antiquewhite", 250, 235, 215),
   ("aquamarine", 127, 255, 212), ("azure", 240, 255, 255),
   ("beige", 245, 245, 220), ("bisque", 255, 228, 196),
   ("blanchedalmond", 255, 235, 205), ("blueviolet", 138, 43, 226),
   ("brown", 165, 42, 42), ("burlywood", 222, 184, 135),
   ("cadetblue", 95, 158, 160), ("chartreuse", 127, 255, 0),
   ("chocolate", 210, 105, 30), ("coral", 255, 127, 80),
   ("cornflowerblue", 100, 149, 237), ("cornsilk", 255, 248, 220),
   ("crimson", 220, 20, 60), ("cyan", 0, 255, 255),
   ("darkblue", 0, 0, 139), ("darkcyan", 0, 139, 139),
   ("darkgoldenrod", 184, 134, 11), ("darkgray", 169, 169, 169),
   ("darkgreen", 0, 100, 0), ("darkgrey", 169, 169, 169),
   ("darkkhaki", 189, 183, 107), ("darkmagenta", 139, 0, 139),
   ("darkolivegreen", 85, 107, 47), ("darkorange", 255, 140, 0),
   ("darkorchid", 153, 50, 204), ("darkred", 139, 0, 0),
   ("darksalmon", 233, 150, 122), ("darkseagreen", 143, 188, 143),
   ("darkslateblue", 72, 61, 139), ("darkslategray", 47, 79, 79),
   ("darkslategrey", 47, 79, 79), ("darkturquoise", 0, 206, 209),
   ("darkviolet", 148, 0, 211), ("deeppink", 255, 20, 147),
   ("deepskyblue", 0, 191, 255), ("dimgray", 105, 105, 105),
   ("dimgrey", 105, 105, 105), ("dodgerblue", 30, 144, 255),
   ("firebrick", 178, 34, 34), ("floralwhite", 255, 250, 240),
   ("forestgreen", 34, 139, 34), ("gainsboro", 220, 220, 220),
   ("ghostwhite", 248, 248, 255), ("gold", 255, 215, 0),
   ("goldenrod", 218, 165, 32), ("grey", 128, 128, 128),
   ("greenyellow", 173, 255, 47), ("honeydew", 240, 255, 240),
   ("hotpink", 255, 105, 180), ("indianred", 205, 92, 92),
   ("indigo", 75, 0, 130), ("ivory", 255, 255, 240),
   ("khaki", 240, 230, 140), ("lavender", 230, 230, 250),
   ("lavenderblush", 255, 240, 245), ("lawngreen", 124, 252, 0),
   ("lemonchiffon", 255, 250, 205), ("lightblue", 173, 216, 230),
   ("lightcoral", 240, 128, 128), ("lightcyan", 224, 255, 255),
   ("lightgoldenrodyellow", 250, 250, 210), ("lightgray", 211, 211, 211),
   ("lightgreen", 144, 238, 144), ("lightgrey", 211, 211, 211),
   ("lightpink", 255, 182, 193), ("lightsalmon", 255, 160, 122),
   ("lightseagreen", 32, 178, 170), ("lightskyblue", 135, 206, 250),
   ("lightslategray", 119, 136, 153), ("lightslategrey", 119, 136, 153),
   ("lightsteelblue", 176, 196, 222), ("lightyellow", 255, 255, 224),
   ("limegreen", 50, 205, 50), ("linen", 250, 240, 230),
   ("magenta", 255, 0, 255), ("mediumaquamarine", 102, 205, 170),
   ("mediumblue", 0, 0, 205), ("mediumorchid", 186, 85, 211),
   ("mediumpurple", 147, 112, 219), ("mediumseagreen", 60, 179, 113),
   ("mediumslateblue", 123, 104, 238), ("mediumspringgreen", 0, 250, 154),
   ("mediumturquoise", 72, 209, 204), ("mediumvioletred", 199, 21, 133),
   ("midnightblue", 25, 25, 112), ("mintcream", 245, 255, 250),
   ("mistyrose", 255, 228, 225), ("moccasin", 255, 228, 181),
   ("navajowhite", 255, 222, 173), ("oldlace", 253, 245, 230),
   ("olivedrab", 107, 142, 35), ("orange", 255, 165, 0),
   ("orangered", 255, 69, 0), ("orchid", 218, 112, 214),
   ("palegoldenrod", 238, 232, 170), ("palegreen", 152, 251, 152),
   ("paleturquoise", 175, 238, 238), ("palevioletred", 219, 112, 147),
   ("papayawhip", 255, 239, 213), ("peachpuff", 255, 218, 185),
   ("peru", 205, 133, 63), ("pink", 255, 192, 203),
   ("plum", 221, 160, 221), ("powderblue", 176, 224, 230),
   ("rebeccapurple", 102, 51, 153), ("rosybrown", 188, 143, 143),
   ("royalblue", 65, 105, 225), ("saddlebrown", 139, 69, 19),
   ("salmon", 250, 128, 114), ("sandybrown", 244, 164, 96),
   ("seagreen", 46, 139, 87), ("seashell", 255, 245, 238),
   ("sienna", 160, 82, 45), ("skyblue", 135, 206, 235),
   ("slateblue", 106, 90, 205), ("slategray", 112, 128, 144),
   ("slategrey", 112, 128, 144), ("snow", 255, 250, 250),
   ("springgreen", 0, 255, 127), ("steelblue", 70, 130, 180),
   ("tan", 210, 180, 140), ("thistle", 216, 191, 216),
   ("tomato", 255, 99, 71), ("turquoise", 64, 224, 208),
   ("violet", 238, 130, 238), ("wheat", 245, 222, 179),
   ("whitesmoke", 245, 245, 245), ("yellowgreen", 154, 205, 50)]

/-- An argument passed to `ColorParser.parse`: a string, or any
non-string JS value (the parser treats all non-strings alike). -/
inductive JsInput where
  | str (s : String)
  | nonString
deriving DecidableEq, Repr

def startsHash : List Char → Bool
  | '#' :: _ => true
  | _ => false

def startsRGBLit : List Char → Bool
  | 'r' :: 'g' :: 'b' :: _ => true
  | _ => false

/-- `ColorParser.parse(color)`: non-strings map to opaque black;
otherwise the trimmed, lower-cased string is dispatched on a leading `#`,
a leading `rgb`, or a named-color lookup, defaulting to opaque black.
The `Map`-based cache of the source is pure memoization (the cached value
is what the cold path computes) and is not modelled.  The source's named
lookup `this._namedColors[trimmed]` would also hit properties inherited
from `Object.prototype` (e.g. `constructor`); the model uses a plain
table, which agrees with the source on every key of the table itself. -/
def ColorParser.parse (input : JsInput) : ParsedRGBA :=
  match input with
  | .nonString => opaqueBlack
  | .str s =>
    let trimmed := jsToLower (jsTrim s.data)
    if startsHash trimmed then ColorParser.parseHex trimmed
    else if startsRGBLit trimmed then ColorParser.parseRGB trimmed
    else
      match namedColors.lookup (String.mk trimmed) with
      | some (r, g, b) => ⟨some r, some g, some b, some 255⟩
      | none => opaqueBlack

lemma testBit_false_of_lt_pow {x k j : ℕ} (hx : x < 2 ^ k) (hk : k ≤ j) :
    x.testBit j = false :=
  Nat.testBit_lt_two_pow (lt_of_lt_of_le hx (Nat.pow_le_pow_right (by omega) hk))

lemma padBitsZero_of_padOK {b : BitBuffer} (h : b.padOK) : b.padBitsZero := by
  intro j hj
  exact testBit_false_of_lt_pow h (by omega)

/-! ### List helpers -/

lemma getD_replicate {n x i : ℕ} (h : i < n) :
    (List.replicate n x).getD i 0 = x := by
  simp [List.getD_eq_getElem?_getD, List.getElem?_replicate, h]

lemma getD_set_self {l : List ℕ} {i : ℕ} (v : ℕ) (h : i < l.length) :
    (l.set i v).getD i 0 = v := by
  simp [List.getD_eq_getElem?_getD, List.getElem?_set_self, h]

lemma getD_set_of_ne {l : List ℕ} {i k v : ℕ} (h : i ≠ k) :
    (l.set i v).getD k 0 = l.getD k 0 := by
  simp [List.getD_eq_getElem?_getD, List.getElem?_set_ne h]

lemma getD_zipWith {f : ℕ → ℕ → ℕ} {l1 l2 : List ℕ} {i : ℕ}
    (h1 : i < l1.length) (h2 : i < l2.length) :
    (List.zipWith f l1 l2).getD i 0 = f (l1.getD i 0) (l2.getD i 0) := by
  induction l1 generalizing l2 i with
  | nil => simp at h1
  | cons x t1 ih =>
    cases l2 with
    | nil => simp at h2
    | cons y t2 =>
      cases i with
      | zero => rfl
      | succ i =>
        simpa using ih (by simpa using h1) (by simpa using h2)

lemma zipWith_eq_left_of_getD {l1 l2 : List ℕ} (hlen : l1.length = l2.length)
    (hpt : ∀ i, i < l1.length → l1.getD i 0 &&& l2.getD i 0 = l1.getD i 0) :
    List.zipWith (fun x y => x &&& y) l1 l2 = l1 := by
  induction l1 generalizing l2 with
  | nil => simp
  | cons x t1 ih =>
    cases l2 with
    | nil => simp at hlen
    | cons y t2 =>
      have h0 := hpt 0 (by simp)
      simp only [List.getD] at h0
      simp only [List.zipWith]
      refine congrArg₂ List.cons h0 (ih (by simpa using hlen) ?_)
      intro i hi
      have := hpt (i + 1) (by simpa using Nat.succ_lt_succ hi)
      simpa using this

lemma zipWith_and_absorb (a : List ℕ) (b : List ℕ) :
    List.zipWith (fun x y => x &&& y) (List.zipWith (fun x y => x &&& y) a b) b
      = List.zipWith (fun x y => x &&& y) a b := by
  induction a generalizing b with
  | nil => simp
  | cons x t ih =>
    cases b with
    | nil => simp
    | cons y tb =>
      simp only [List.zipWith]
      refine congrArg₂ List.cons ?_ (ih tb)
      refine Nat.eq_of_testBit_eq fun j => ?_
      simp [Nat.testBit_and, Bool.and_assoc]

lemma zipWith_and_comm (a : List ℕ) (b : List ℕ) :
    List.zipWith (fun x y => x &&& y) a b = List.zipWith (fun x y => x &&& y) b a := by
  induction a generalizing b with
  | nil => cases b <;> simp
  | cons x t ih =>
    cases b with
    | nil => simp
    | cons y tb =>
      simp only [List.zipWith]
      exact congrArg₂ List.cons (Nat.and_comm x y) (ih tb)

lemma zipWith_and_zero_right {l1 l2 : List ℕ} (h : ∀ y ∈ l2, y = 0) :
    (List.zipWith (fun x y => x &&& y) l1 l2).all (fun byte => byte == 0) = true := by
  induction l1 generalizing l2 with
  | nil => simp
  | cons x t ih =>
    cases l2 with
    | nil => simp
    | cons y tb =>
      have hy : y = 0 := h y (by simp)
      simp only [List.zipWith, List.all_cons, Bool.and_eq_true, beq_iff_eq]
      exact ⟨by simp [hy], ih fun z hz => h z (by simp [hz])⟩

/-! ### Bit-access bridge lemmas -/

lemma and_two_pow_ne_zero_iff (n k : ℕ) :
    (n &&& (1 <<< k) ≠ 0) ↔ n.testBit k = true := by
  rw [Nat.one_shiftLeft, Nat.and_two_pow]
  cases h : n.testBit k <;> simp [h]

lemma getBit_eq_one_iff {buf : List ℕ} {i : ℕ} (h : i / 8 < buf.length) :
    getBit buf i = 1 ↔ (buf.getD (i / 8) 0).testBit (i % 8) = true := by
  unfold getBit
  rw [if_neg (by omega)]
  rw [← and_two_pow_ne_zero_iff]
  split <;> simp_all

/-- The linear pixel index of an in-range coordinate is below `numPixels`. -/
lemma pixelIndex_lt {w h : ℕ} {x y : ℤ} (hx0 : 0 ≤ x) (hx : x < (w : ℤ))
    (hy0 : 0 ≤ y) (hy : y < (h : ℤ)) :
    (y * w + x).toNat < w * h := by
  have hyw : y * (w : ℤ) ≤ ((h : ℤ) - 1) * w := by
    have : y ≤ (h : ℤ) - 1 := by omega
    exact mul_le_mul_of_nonneg_right this (by positivity)
  have hlt : y * (w : ℤ) + x < (w : ℤ) * h := by nlinarith
  have hcast : ((w * h : ℕ) : ℤ) = (w : ℤ) * h := by push_cast; ring
  have hwh : 0 < w * h := Nat.mul_pos (by omega) (by omega)
  omega

/-! ## Shared lemmas about the Color operations -/

lemma jsRound_intCast (n : ℤ) : jsRound (n : ℚ) = n := by
  unfold jsRound
  rw [add_comm, Int.floor_add_int]
  norm_num

lemma jsRound_mem_of_bounds {x : ℚ} (h0 : 0 ≤ x) (h255 : x ≤ 255) :
    0 ≤ jsRound x ∧ jsRound x ≤ 255 := by
  unfold jsRound
  constructor
  · exact Int.le_floor.mpr (by push_cast; linarith)
  · have h : ⌊x + 1 / 2⌋ < 256 := Int.floor_lt.mpr (by push_cast; linarith)
    omega

lemma blendOver_alpha_full {src bg : Color} (h : src.pa = 255) :
    Color.blendOver src bg = .ok src := by
  unfold Color.blendOver
  rw [if_pos h]

lemma blendOver_transparent {src bg : Color} (h : src.pa = 0) :
    Color.blendOver src bg = .ok bg := by
  unfold Color.blendOver
  rw [if_neg (by omega), if_pos h]

lemma blendOver_eq_create {src bg : Color} (h1 : src.pa ≠ 255) (h2 : src.pa ≠ 0) :
    Color.blendOver src bg =
      Color.create
        ((jsRound ((src.pr : ℚ) + (bg.pr : ℚ) * (1 - (src.pa : ℚ) / 255)) : ℤ) : ℚ)
        ((jsRound ((src.pg : ℚ) + (bg.pg : ℚ) * (1 - (src.pa : ℚ) / 255)) : ℤ) : ℚ)
        ((jsRound ((src.pb : ℚ) + (bg.pb : ℚ) * (1 - (src.pa : ℚ) / 255)) : ℤ) : ℚ)
        ((jsRound ((src.pa : ℚ) + (bg.pa : ℚ) * (1 - (src.pa : ℚ) / 255)) : ℤ) : ℚ)
        true := by
  unfold Color.blendOver Color.normalizedAlpha
  rw [if_neg h1, if_neg h2]

lemma not_component_out_of_range {r g b a : ℤ}
    (hr : 0 ≤ r ∧ r ≤ 255) (hg : 0 ≤ g ∧ g ≤ 255)
    (hb : 0 ≤ b ∧ b ≤ 255) (ha : 0 ≤ a ∧ a ≤ 255) :
    ¬((r : ℚ) < 0 ∨ 255 < (r : ℚ) ∨ (g : ℚ) < 0 ∨ 255 < (g : ℚ) ∨
      (b : ℚ) < 0 ∨ 255 < (b : ℚ) ∨ (a : ℚ) < 0 ∨ 255 < (a : ℚ)) := by
  have hr1 : (0 : ℚ) ≤ (r : ℚ) := by exact_mod_cast hr.1
  have hr2 : (r : ℚ) ≤ 255 := by exact_mod_cast hr.2
  have hg1 : (0 : ℚ) ≤ (g : ℚ) := by exact_mod_cast hg.1
  have hg2 : (g : ℚ) ≤ 255 := by exact_mod_cast hg.2
  have hb1 : (0 : ℚ) ≤ (b : ℚ) := by exact_mod_cast hb.1
  have hb2 : (b : ℚ) ≤ 255 := by exact_mod_cast hb.2
  have ha1 : (0 : ℚ) ≤ (a : ℚ) := by exact_mod_cast ha.1
  have ha2 : (a : ℚ) ≤ 255 := by exact_mod_cast ha.2
  rintro (h | h | h | h | h | h | h | h) <;> linarith

lemma create_premul_ok {r g b a : ℤ}
    (hr : 0 ≤ r ∧ r ≤ 255) (hg : 0 ≤ g ∧ g ≤ 255)
    (hb : 0 ≤ b ∧ b ≤ 255) (ha : 0 ≤ a ∧ a ≤ 255) :
    Color.create (r : ℚ) (g : ℚ) (b : ℚ) (a : ℚ) true = .ok ⟨r, g, b, a⟩ := by
  unfold Color.create
  rw [if_neg (not_component_out_of_range hr hg hb ha), if_pos rfl]
  simp [jsRound_intCast]

lemma jsRound_eq (q : ℚ) (n : ℤ) (h1 : (n : ℚ) ≤ q + 1 / 2) (h2 : q + 1 / 2 < n + 1) :
    jsRound q = n := by
  unfold jsRound
  exact Int.floor_eq_iff.mpr ⟨h1, h2⟩

lemma create_straight_eval {r g b a : ℚ}
    (h : ¬(r < 0 ∨ 255 < r ∨ g < 0 ∨ 255 < g ∨ b < 0 ∨ 255 < b ∨ a < 0 ∨ 255 < a)) :
    Color.create r g b a false =
      .ok ⟨jsRound (r * (a / 255)), jsRound (g * (a / 255)), jsRound (b * (a / 255)), jsRound a⟩ := by
  unfold Color.create
  rw [if_neg h]
  rfl

/-! ## Pad-bit invariant lemmas (C1) -/

lemma getD_initializeToDefault_lt (len np dv : ℕ) (hlen : len = (np + 7) / 8) :
    (initializeToDefault len np ((np + 7) / 8) dv).getD ((np + 7) / 8 - 1) 0 <
      2 ^ (np - 8 * ((np + 7) / 8 - 1)) := by
  subst hlen
  unfold initializeToDefault
  by_cases hdv : dv = 1
  · rw [if_pos hdv]
    by_cases hr : np % 8 ≠ 0
    · rw [if_pos hr]
      have hnp : 0 < np := by omega
      have hlt : (np + 7) / 8 - 1 < (List.replicate ((np + 7) / 8) (255 : ℕ)).length := by
        simp only [List.length_replicate]
        omega
      rw [getD_set_self _ hlt]
      have hexp : np - 8 * ((np + 7) / 8 - 1) = np % 8 := by omega
      rw [hexp, Nat.one_shiftLeft]
      have := Nat.pos_pow_of_pos (np % 8) (show 0 < 2 by omega)
      omega
    · rw [if_neg hr]
      by_cases hz : np = 0
      · subst hz
        simp [List.getD]
      · have hnb : 0 < (np + 7) / 8 := by omega
        rw [getD_replicate (by omega)]
        have hexp : np - 8 * ((np + 7) / 8 - 1) = 8 := by omega
        rw [hexp]
        norm_num
  · rw [if_neg hdv]
    by_cases hz : (np + 7) / 8 = 0
    · rw [hz]
      simp [List.getD, Nat.pos_pow_of_pos]
    · rw [getD_replicate (by omega)]
      exact Nat.pos_pow_of_pos _ (by omega)

lemma mkBitBuffer_padOK {w h d : ℤ} {bc : BitBuffer}
    (hmk : mkBitBuffer w h d = .ok bc) : bc.padOK := by
  unfold mkBitBuffer at hmk
  by_cases hw : w ≤ 0
  · rw [if_pos hw] at hmk; exact absurd hmk (by simp)
  rw [if_neg hw] at hmk
  by_cases hh : h ≤ 0
  · rw [if_pos hh] at hmk; exact absurd hmk (by simp)
  rw [if_neg hh] at hmk
  by_cases hd : d ≠ 0 ∧ d ≠ 1
  · rw [if_pos hd] at hmk; exact absurd hmk (by simp)
  rw [if_neg hd] at hmk
  simp only [Except.ok.injEq] at hmk
  subst hmk
  exact getD_initializeToDefault_lt _ _ _ rfl

lemma fill_padOK {b : BitBuffer} (hlen : b.buffer.length = b.numBytes) :
    (b.fill).padOK := by
  have hfill : b.fill = { b with buffer := initializeToDefault b.buffer.length b.numPixels b.numBytes 1 } := rfl
  rw [hfill]
  show (initializeToDefault b.buffer.length b.numPixels ((b.numPixels + 7) / 8) 1).getD
      ((b.numPixels + 7) / 8 - 1) 0 < 2 ^ (b.numPixels - 8 * ((b.numPixels + 7) / 8 - 1))
  exact getD_initializeToDefault_lt _ _ _ hlen

lemma reset_padOK {b : BitBuffer} (hlen : b.buffer.length = b.numBytes) :
    (b.reset).padOK := by
  unfold BitBuffer.reset
  show (initializeToDefault b.buffer.length b.numPixels b.numBytes b.defaultValue).getD
      ((b.numPixels + 7) / 8 - 1) 0 < 2 ^ (b.numPixels - 8 * ((b.numPixels + 7) / 8 - 1))
  exact getD_initializeToDefault_lt _ _ _ hlen

lemma and_ok_dims {b o r : BitBuffer} (hok : b.and o = .ok r) :
    o.width = b.width ∧ o.height = b.height ∧
      r = { b with buffer := List.zipWith (fun x y => x &&& y) b.buffer o.buffer } := by
  unfold BitBuffer.and at hok
  by_cases hdim : o.width ≠ b.width ∨ o.height ≠ b.height
  · rw [if_pos hdim] at hok; exact absurd hok (by simp)
  · rw [if_neg hdim] at hok
    push_neg at hdim
    simp only [Except.ok.injEq] at hok
    exact ⟨hdim.1, hdim.2, hok.symm⟩

lemma copyFrom_ok_dims {b o r : BitBuffer} (hok : b.copyFrom o = .ok r) :
    o.width = b.width ∧ o.height = b.height ∧ r = { b with buffer := o.buffer } := by
  unfold BitBuffer.copyFrom at hok
  by_cases hdim : o.width ≠ b.width ∨ o.height ≠ b.height
  · rw [if_pos hdim] at hok; exact absurd hok (by simp)
  · rw [if_neg hdim] at hok
    push_neg at hdim
    simp only [Except.ok.injEq] at hok
    exact ⟨hdim.1, hdim.2, hok.symm⟩

/-! ## Mask intersection lemmas (C7, C8) -/

lemma intersect_ok {A B : ClipMask}
    (hw : B.bitBuffer.width = A.bitBuffer.width)
    (hh : B.bitBuffer.height = A.bitBuffer.height) :
    A.intersectWith B =
      .ok ⟨{ A.bitBuffer with
             buffer := List.zipWith (fun x y => x &&& y) A.bitBuffer.buffer B.bitBuffer.buffer }⟩ := by
  unfold ClipMask.intersectWith BitBuffer.and
  rw [if_neg (by simp [hw, hh])]
  rfl

/-! ## Pixel-writer lemmas (C3) -/

lemma getBit_setBit_same {buf : List ℕ} {i : ℕ} (h : i / 8 < buf.length) (v : ℕ)
    (hv : v ≤ 1) :
    getBit (setBit buf i v) i = v := by
  unfold setBit
  rw [if_neg (by omega)]
  rcases Nat.le_one_iff_eq_zero_or_eq_one.mp hv with hv0 | hv1
  · subst hv0
    rw [if_neg (by omega)]
    unfold getBit
    rw [if_neg (by simpa using h)]
    have hget := getD_set_self ((buf.getD (i / 8) 0) &&& (255 ^^^ (1 <<< (i % 8)))) h
    rw [hget]
    have hzero : ((buf.getD (i / 8) 0) &&& (255 ^^^ (1 <<< (i % 8)))) &&& (1 <<< (i % 8)) = 0 := by
      rw [Nat.one_shiftLeft, Nat.and_two_pow]
      have hbit : ((buf.getD (i / 8) 0) &&& (255 ^^^ 2 ^ (i % 8))).testBit (i % 8) = false := by
        rw [Nat.testBit_and, Nat.testBit_xor]
        have h255 : (255 : ℕ) = 2 ^ 8 - 1 := by norm_num
        rw [h255, Nat.testBit_two_pow_sub_one, Nat.testBit_two_pow_self]
        simp [Nat.mod_lt i (show 0 < 8 by omega)]
      rw [hbit]
      simp
    rw [if_neg (by omega)]
  · subst hv1
    rw [if_pos (by omega)]
    unfold getBit
    rw [if_neg (by simpa using h)]
    have hget := getD_set_self ((buf.getD (i / 8) 0) ||| (1 <<< (i % 8))) h
    rw [hget]
    have hone : ((buf.getD (i / 8) 0) ||| (1 <<< (i % 8))) &&& (1 <<< (i % 8)) ≠ 0 := by
      rw [Nat.one_shiftLeft, Nat.and_two_pow]
      have hbit : ((buf.getD (i / 8) 0) ||| 2 ^ (i % 8)).testBit (i % 8) = true := by
        rw [Nat.testBit_or, Nat.testBit_two_pow_self]
        simp
      rw [hbit]
      simp
    rw [if_pos hone]

/-! ## Blending safety and global-alpha lemmas (C10, C4) -/

lemma blend_channel_mem {p q pa : ℤ} (hp0 : 0 ≤ p) (hppa : p ≤ pa)
    (hq0 : 0 ≤ q) (hq255 : q ≤ 255) (hpa255 : pa ≤ 255) :
    0 ≤ jsRound ((p : ℚ) + (q : ℚ) * (1 - (pa : ℚ) / 255)) ∧
    jsRound ((p : ℚ) + (q : ℚ) * (1 - (pa : ℚ) / 255)) ≤ 255 := by
  have hpa' : (pa : ℚ) ≤ 255 := by exact_mod_cast hpa255
  have hinv0 : (0 : ℚ) ≤ 1 - (pa : ℚ) / 255 := by linarith
  have hp' : (0 : ℚ) ≤ (p : ℚ) := by exact_mod_cast hp0
  have hq' : (0 : ℚ) ≤ (q : ℚ) := by exact_mod_cast hq0
  have hppa' : (p : ℚ) ≤ (pa : ℚ) := by exact_mod_cast hppa
  have hq255' : (q : ℚ) ≤ 255 := by exact_mod_cast hq255
  have hx0 : (0 : ℚ) ≤ (p : ℚ) + (q : ℚ) * (1 - (pa : ℚ) / 255) := by nlinarith
  have hx255 : (p : ℚ) + (q : ℚ) * (1 - (pa : ℚ) / 255) ≤ 255 := by
    nlinarith [mul_le_mul_of_nonneg_right hq255' hinv0]
  exact jsRound_mem_of_bounds hx0 hx255

lemma straight_view_mem {p pa : ℤ} (h0 : 0 ≤ p) (h1 : p ≤ pa) (h2 : pa ≤ 255) :
    0 ≤ (if pa = 0 then 0 else if pa = 255 then p else jsRound ((p : ℚ) * 255 / (pa : ℚ))) ∧
    (if pa = 0 then 0 else if pa = 255 then p else jsRound ((p : ℚ) * 255 / (pa : ℚ))) ≤ 255 := by
  split_ifs with hz h255
  · exact ⟨le_refl 0, by norm_num⟩
  · exact ⟨h0, h255 ▸ h1⟩
  · have hpa0 : (0 : ℚ) < (pa : ℚ) := by exact_mod_cast (show (0 : ℤ) < pa by omega)
    have hp' : (0 : ℚ) ≤ (p : ℚ) := by exact_mod_cast h0
    have hx0 : (0 : ℚ) ≤ (p : ℚ) * 255 / (pa : ℚ) := by positivity
    have hx255 : (p : ℚ) * 255 / (pa : ℚ) ≤ 255 := by
      rw [div_le_iff hpa0]
      have hppa' : (p : ℚ) ≤ (pa : ℚ) := by exact_mod_cast h1
      nlinarith
    exact jsRound_mem_of_bounds hx0 hx255

/-! ## Claim theorems -/

/-- C2: `blendOver` returns the source unchanged when the source's stored
alpha is 255, the background unchanged when it is 0, and otherwise the
color whose premultiplied components are
`round(srcP_c + bgP_c * (1 - srcAlpha/255))` per channel (alpha included),
constructed as already premultiplied. -/
theorem color_blendOver_cases (src bg : Color) :
    (src.pa = 255 → Color.blendOver src bg = .ok src) ∧
    (src.pa = 0 → Color.blendOver src bg = .ok bg) ∧
    (src.pa ≠ 255 → src.pa ≠ 0 →
      Color.blendOver src bg =
        Color.create
          ((jsRound ((src.pr : ℚ) + (bg.pr : ℚ) * (1 - (src.pa : ℚ) / 255)) : ℤ) : ℚ)
          ((jsRound ((src.pg : ℚ) + (bg.pg : ℚ) * (1 - (src.pa : ℚ) / 255)) : ℤ) : ℚ)
          ((jsRound ((src.pb : ℚ) + (bg.pb : ℚ) * (1 - (src.pa : ℚ) / 255)) : ℤ) : ℚ)
          ((jsRound ((src.pa : ℚ) + (bg.pa : ℚ) * (1 - (src.pa : ℚ) / 255)) : ℤ) : ℚ)
          true) :=
  ⟨fun h => blendOver_alpha_full h, fun h => blendOver_transparent h,
   fun h1 h2 => blendOver_eq_create h1 h2⟩

/-- Witness for C2 at concrete colors: an opaque source, a transparent
source, and a partially transparent source. -/
theorem color_blendOver_cases_witness :
    Color.blendOver ⟨10, 20, 30, 255⟩ ⟨1, 2, 3, 4⟩ = .ok ⟨10, 20, 30, 255⟩ ∧
    Color.blendOver ⟨0, 0, 0, 0⟩ ⟨1, 2, 3, 4⟩ = .ok ⟨1, 2, 3, 4⟩ ∧
    Color.blendOver ⟨50, 60, 70, 128⟩ ⟨10, 20, 30, 255⟩ =
      Color.create
        ((jsRound ((50 : ℚ) + (10 : ℚ) * (1 - (128 : ℚ) / 255)) : ℤ) : ℚ)
        ((jsRound ((60 : ℚ) + (20 : ℚ) * (1 - (128 : ℚ) / 255)) : ℤ) : ℚ)
        ((jsRound ((70 : ℚ) + (30 : ℚ) * (1 - (128 : ℚ) / 255)) : ℤ) : ℚ)
        ((jsRound ((128 : ℚ) + (255 : ℚ) * (1 - (128 : ℚ) / 255)) : ℤ) : ℚ)
        true := by
  refine ⟨(color_blendOver_cases ⟨10, 20, 30, 255⟩ ⟨1, 2, 3, 4⟩).1 rfl,
          (color_blendOver_cases ⟨0, 0, 0, 0⟩ ⟨1, 2, 3, 4⟩).2.1 rfl,
          ?_⟩
  have h := (color_blendOver_cases ⟨50, 60, 70, 128⟩ ⟨10, 20, 30, 255⟩).2.2
    (by decide) (by decide)
  simpa using h

/-- C5: out-of-range coordinates are never errors: `getPixel` returns
`false` and `setPixel` leaves the buffer byte-for-byte unchanged (both
functions are total in the embedding, as in the source, which merely
short-circuits). -/
theorem bitBuffer_out_of_range_get_set (b : BitBuffer) (x y : ℤ) (v : Bool)
    (h : x < 0 ∨ (b.width : ℤ) ≤ x ∨ y < 0 ∨ (b.height : ℤ) ≤ y) :
    b.getPixel x y = false ∧ b.setPixel x y v = b := by
  constructor
  · unfold BitBuffer.getPixel
    rw [if_pos h]
  · unfold BitBuffer.setPixel
    rw [if_pos h]

/-- Witness for C5 at a concrete buffer and the out-of-range coordinate
`(5, 0)` on a 3×3 buffer. -/
theorem bitBuffer_out_of_range_get_set_witness :
    BitBuffer.getPixel ⟨3, 3, 1, [255, 1]⟩ 5 0 = false ∧
    BitBuffer.setPixel ⟨3, 3, 1, [255, 1]⟩ 5 0 true = ⟨3, 3, 1, [255, 1]⟩ :=
  bitBuffer_out_of_range_get_set ⟨3, 3, 1, [255, 1]⟩ 5 0 true (by decide)

/-- C6 (code-bug evidence): `parse('#zzzzzz')` does not return opaque
black.  The string is hex-shaped (`#` plus six characters), so
`_parseHex` reaches the 6-digit branch and calls `parseInt('zz', 16)`,
which is `NaN`; the parser returns `{r: NaN, g: NaN, b: NaN, a: 255}`,
contradicting both the spec's contract and the source's own
`// Invalid hex - default to black` comment. -/
theorem colorParser_invalid_hex_not_black :
    ColorParser.parse (.str "#zzzzzz") = ⟨none, none, none, some 255⟩ ∧
    ColorParser.parse (.str "#zzzzzz") ≠ opaqueBlack := by
  decide

/-- C9: constructing from straight `(200, 100, 50, 128)` stores
premultiplied `(100, 50, 25, 128)`, and the straight views read back
`(199, 100, 50, 128)` — each within ±1 of the input. -/
theorem color_create_roundtrip_bounded :
    Color.create 200 100 50 128 false = .ok ⟨100, 50, 25, 128⟩ ∧
    (Color.r ⟨100, 50, 25, 128⟩ - 200).natAbs ≤ 1 ∧
    (Color.g ⟨100, 50, 25, 128⟩ - 100).natAbs ≤ 1 ∧
    (Color.b ⟨100, 50, 25, 128⟩ - 50).natAbs ≤ 1 ∧
    (Color.a ⟨100, 50, 25, 128⟩ - 128).natAbs ≤ 1 := by
  have hcr : Color.create 200 100 50 128 false = .ok ⟨100, 50, 25, 128⟩ := by
    rw [create_straight_eval (by norm_num)]
    rw [jsRound_eq _ 100 (by norm_num) (by norm_num),
        jsRound_eq _ 50 (by norm_num) (by norm_num),
        jsRound_eq _ 25 (by norm_num) (by norm_num),
        jsRound_eq _ 128 (by norm_num) (by norm_num)]
  have hr : Color.r ⟨100, 50, 25, 128⟩ = 199 := by
    unfold Color.r
    rw [if_neg (by decide), if_neg (by decide)]
    exact jsRound_eq _ _ (by push_cast; norm_num) (by push_cast; norm_num)
  have hg : Color.g ⟨100, 50, 25, 128⟩ = 100 := by
    unfold Color.g
    rw [if_neg (by decide), if_neg (by decide)]
    exact jsRound_eq _ _ (by push_cast; norm_num) (by push_cast; norm_num)
  have hb : Color.b ⟨100, 50, 25, 128⟩ = 50 := by
    unfold Color.b
    rw [if_neg (by decide), if_neg (by decide)]
    exact jsRound_eq _ _ (by push_cast; norm_num) (by push_cast; norm_num)
  refine ⟨hcr, ?_, ?_, ?_, ?_⟩
  · rw [hr]; decide
  · rw [hg]; decide
  · rw [hb]; decide
  · decide

/-- C1: the trailing pad bits of the final byte (bits whose linear index
reaches `pixelCount`) read as zero after construction (either default),
after `fill()`, after `reset()`, after `and(other)` and after
`copyFrom(other)`, whenever the operands are well-formed states
satisfying the invariant themselves. -/
theorem bitBuffer_pad_invariant (w h d : ℤ) (bc b o r1 r2 : BitBuffer)
    (hWFb : b.WF) (hWFo : o.WF) (hpadb : b.padOK) (hpado : o.padOK) :
    (mkBitBuffer w h d = .ok bc → bc.padBitsZero) ∧
    (b.fill).padBitsZero ∧
    (b.reset).padBitsZero ∧
    (b.and o = .ok r1 → r1.padBitsZero) ∧
    (b.copyFrom o = .ok r2 → r2.padBitsZero) := by
  refine ⟨fun hmk => padBitsZero_of_padOK (mkBitBuffer_padOK hmk),
          padBitsZero_of_padOK (fill_padOK hWFb.1),
          padBitsZero_of_padOK (reset_padOK hWFb.1),
          fun hok => ?_, fun hok => ?_⟩
  · obtain ⟨hw, hh, hr⟩ := and_ok_dims hok
    refine padBitsZero_of_padOK ?_
    subst hr
    show (List.zipWith (fun x y => x &&& y) b.buffer o.buffer).getD (b.numBytes - 1) 0 <
      2 ^ (b.numPixels - 8 * (b.numBytes - 1))
    by_cases hnb : b.numBytes = 0
    · rw [hnb]
      have : (List.zipWith (fun x y => x &&& y) b.buffer o.buffer).length = 0 := by
        have := hWFb.1
        simp only [List.length_zipWith]
        omega
      rw [List.length_eq_zero.mp this]
      exact Nat.pos_pow_of_pos _ (by omega)
    · have honp : o.numPixels = b.numPixels := by
        unfold BitBuffer.numPixels
        rw [hw, hh]
      have honb : o.numBytes = b.numBytes := by
        unfold BitBuffer.numBytes
        rw [honp]
      have h1 : b.numBytes - 1 < b.buffer.length := by rw [hWFb.1]; omega
      have h2 : b.numBytes - 1 < o.buffer.length := by rw [hWFo.1, honb]; omega
      rw [getD_zipWith h1 h2]
      calc b.buffer.getD (b.numBytes - 1) 0 &&& o.buffer.getD (b.numBytes - 1) 0
          ≤ b.buffer.getD (b.numBytes - 1) 0 := Nat.and_le_left
        _ < 2 ^ (b.numPixels - 8 * (b.numBytes - 1)) := hpadb
  · obtain ⟨hw, hh, hr⟩ := copyFrom_ok_dims hok
    refine padBitsZero_of_padOK ?_
    subst hr
    have honp : o.numPixels = b.numPixels := by
      unfold BitBuffer.numPixels
      rw [hw, hh]
    have honb : o.numBytes = b.numBytes := by
      unfold BitBuffer.numBytes
      rw [honp]
    show o.buffer.getD (b.numBytes - 1) 0 < 2 ^ (b.numPixels - 8 * (b.numBytes - 1))
    rw [← honp, ← honb]
    exact hpado

/-- Witness for C1 on 3×3 buffers (9 pixels, 2 bytes, 1 in-range bit in
the final byte). -/
theorem bitBuffer_pad_invariant_witness :
    BitBuffer.padBitsZero ⟨3, 3, 1, [255, 1]⟩ ∧
    BitBuffer.padBitsZero (BitBuffer.fill ⟨3, 3, 1, [170, 1]⟩) ∧
    BitBuffer.padBitsZero (BitBuffer.reset ⟨3, 3, 1, [170, 1]⟩) ∧
    BitBuffer.padBitsZero ⟨3, 3, 1, [136, 0]⟩ ∧
    BitBuffer.padBitsZero ⟨3, 3, 1, [204, 0]⟩ := by
  have h := bitBuffer_pad_invariant 3 3 1 ⟨3, 3, 1, [255, 1]⟩ ⟨3, 3, 1, [170, 1]⟩
    ⟨3, 3, 0, [204, 0]⟩ ⟨3, 3, 1, [136, 0]⟩ ⟨3, 3, 1, [204, 0]⟩
    (by decide) (by decide) (by decide) (by decide)
  exact ⟨h.1 (by decide), h.2.1, h.2.2.1, h.2.2.2.1 (by decide), h.2.2.2.2 (by decide)⟩

/-- C7: `intersectWith` is idempotent (a second application of the same
operand leaves the mask unchanged) and commutative (the two orders leave
the two masks in `equals` states), for same-sized masks. -/
theorem clipMask_intersect_idem_comm (A B C D : ClipMask)
    (hw : B.bitBuffer.width = A.bitBuffer.width)
    (hh : B.bitBuffer.height = A.bitBuffer.height) :
    (A.intersectWith B = .ok C → C.intersectWith B = .ok C) ∧
    (A.intersectWith B = .ok C → B.intersectWith A = .ok D → C.equals D = true) := by
  constructor
  · intro hok
    rw [intersect_ok hw hh] at hok
    simp only [Except.ok.injEq] at hok
    subst hok
    unfold ClipMask.intersectWith BitBuffer.and
    rw [if_neg (by simp [hw, hh])]
    exact congrArg
      (fun l => Except.map ClipMask.mk (Except.ok { A.bitBuffer with buffer := l }))
      (zipWith_and_absorb A.bitBuffer.buffer B.bitBuffer.buffer)
  · intro hok1 hok2
    rw [intersect_ok hw hh] at hok1
    rw [intersect_ok hw.symm hh.symm] at hok2
    simp only [Except.ok.injEq] at hok1 hok2
    subst hok1
    subst hok2
    unfold ClipMask.equals BitBuffer.equals
    simp [hw, hh, zipWith_and_comm]

/-- Witness for C7 on 3×3 masks. -/
theorem clipMask_intersect_idem_comm_witness :
    ClipMask.intersectWith ⟨⟨3, 3, 1, [170, 1]⟩⟩ ⟨⟨3, 3, 1, [204, 0]⟩⟩ = .ok ⟨⟨3, 3, 1, [136, 0]⟩⟩ ∧
    ClipMask.equals ⟨⟨3, 3, 1, [136, 0]⟩⟩ ⟨⟨3, 3, 1, [136, 0]⟩⟩ = true := by
  have h := clipMask_intersect_idem_comm ⟨⟨3, 3, 1, [170, 1]⟩⟩ ⟨⟨3, 3, 1, [204, 0]⟩⟩
    ⟨⟨3, 3, 1, [136, 0]⟩⟩ ⟨⟨3, 3, 1, [136, 0]⟩⟩ rfl rfl
  exact ⟨h.1 (by decide), h.2 (by decide) (by decide)⟩

/-- C8: for a buffer satisfying the pad-bit invariant, `and` with a
same-sized operand whose in-range bits are all `1` (e.g. a filled
buffer) is the identity, and `and` with an all-zero operand yields an
all-zero (`isEmpty`) buffer. -/
theorem bitBuffer_and_ones_zeros (b ones zeros r : BitBuffer)
    (hWFb : b.WF) (hWFones : ones.WF)
    (how : ones.width = b.width) (hoh : ones.height = b.height)
    (hzw : zeros.width = b.width) (hzh : zeros.height = b.height)
    (hpad : b.padOK)
    (hones : ∀ i, i < ones.numPixels → getBit ones.buffer i = 1)
    (hzeros : ∀ byte ∈ zeros.buffer, byte = 0) :
    b.and ones = .ok b ∧ (b.and zeros = .ok r → r.isEmpty = true) := by
  constructor
  · have honp : ones.numPixels = b.numPixels := by
      unfold BitBuffer.numPixels
      rw [how, hoh]
    have honb : ones.numBytes = b.numBytes := by
      unfold BitBuffer.numBytes
      rw [honp]
    have hnb : b.numBytes = (b.numPixels + 7) / 8 := rfl
    have hbuf : List.zipWith (fun x y => x &&& y) b.buffer ones.buffer = b.buffer := by
      apply zipWith_eq_left_of_getD (by rw [hWFb.1, hWFones.1, honb])
      intro i hi
      apply Nat.eq_of_testBit_eq
      intro j
      rw [Nat.testBit_and]
      by_cases hj8 : 8 ≤ j
      · have hmem : b.buffer.getD i 0 ∈ b.buffer := by
          rw [List.getD_eq_getElem _ _ hi]
          exact List.getElem_mem hi
        have hlt : b.buffer.getD i 0 < 2 ^ 8 :=
          lt_of_lt_of_le (hWFb.2 _ hmem) (by norm_num)
        rw [testBit_false_of_lt_pow hlt hj8]
        simp
      · push_neg at hj8
        by_cases hin : 8 * i + j < b.numPixels
        · have hidx : (8 * i + j) / 8 = i := by omega
          have hmod : (8 * i + j) % 8 = j := by omega
          have hlen : (8 * i + j) / 8 < ones.buffer.length := by
            rw [hidx, hWFones.1, honb, ← hWFb.1]
            exact hi
          have h1 := (getBit_eq_one_iff hlen).mp (hones _ (by omega))
          rw [hidx, hmod] at h1
          rw [h1]
          simp
        · push_neg at hin
          have hilen := hWFb.1
          have hi' : i = b.numBytes - 1 := by omega
          have hb0 : (b.buffer.getD i 0).testBit j = false := by
            rw [hi']
            exact testBit_false_of_lt_pow hpad (by omega)
          rw [hb0]
          simp
    unfold BitBuffer.and
    rw [if_neg (by simp [how, hoh]), hbuf]
  · intro hok
    obtain ⟨_, _, hr⟩ := and_ok_dims hok
    subst hr
    unfold BitBuffer.isEmpty
    exact zipWith_and_zero_right hzeros

/-- C3: the function returned by `createPixelWriter` leaves the mask
unchanged for out-of-range coordinates and otherwise sets the visibility
bit at `(x, y)` to `coverage > 0.5`. -/
theorem clipMask_pixelWriter (m : ClipMask) (x y : ℤ) (cov : ℚ)
    (hWF : m.bitBuffer.WF) :
    ((x < 0 ∨ (m.width : ℤ) ≤ x ∨ y < 0 ∨ (m.height : ℤ) ≤ y) →
       m.writePixel x y cov = m) ∧
    (0 ≤ x → x < (m.width : ℤ) → 0 ≤ y → y < (m.height : ℤ) →
       (m.writePixel x y cov).getPixel x y = decide (cov > 0.5)) := by
  constructor
  · intro h
    by_cases hneg : x < 0 ∨ y < 0
    · unfold ClipMask.writePixel
      rw [if_pos hneg]
    · unfold ClipMask.writePixel
      rw [if_neg hneg]
      unfold ClipMask.setPixel BitBuffer.setPixel
      rw [if_pos (by unfold ClipMask.width ClipMask.height at h; tauto)]
  · intro hx0 hxw hy0 hyh
    unfold ClipMask.width at hxw
    unfold ClipMask.height at hyh
    unfold ClipMask.writePixel
    rw [if_neg (by omega)]
    unfold ClipMask.setPixel BitBuffer.setPixel
    rw [if_neg (by omega)]
    unfold ClipMask.getPixel BitBuffer.getPixel
    dsimp only
    rw [if_neg (by omega)]
    have hidx : ((y * m.bitBuffer.width + x).toNat) / 8 < m.bitBuffer.buffer.length := by
      have hlt := pixelIndex_lt hx0 hxw hy0 hyh
      have hlen := hWF.1
      have hnb : m.bitBuffer.numBytes = (m.bitBuffer.numPixels + 7) / 8 := rfl
      have hnp : m.bitBuffer.numPixels = m.bitBuffer.width * m.bitBuffer.height := rfl
      omega
    rw [getBit_setBit_same hidx _ (by split <;> omega)]
    by_cases hc : cov > 0.5
    · simp [hc]
    · simp [hc]

/-- Witness for C3 on a fresh 3×3 mask: an out-of-range write at `(5, 1)`
and an in-range write at `(1, 1)` with coverage `3/4`. -/
theorem clipMask_pixelWriter_witness :
    ClipMask.writePixel ⟨⟨3, 3, 1, [255, 1]⟩⟩ 5 1 (3 / 4) = ⟨⟨3, 3, 1, [255, 1]⟩⟩ ∧
    (ClipMask.writePixel ⟨⟨3, 3, 1, [255, 1]⟩⟩ 1 1 (3 / 4)).getPixel 1 1 =
      decide ((3 / 4 : ℚ) > 0.5) := by
  have h1 := clipMask_pixelWriter ⟨⟨3, 3, 1, [255, 1]⟩⟩ 5 1 (3 / 4) (by decide)
  have h2 := clipMask_pixelWriter ⟨⟨3, 3, 1, [255, 1]⟩⟩ 1 1 (3 / 4) (by decide)
  exact ⟨h1.1 (by decide), h2.2 (by decide) (by decide) (by decide) (by decide)⟩

/-- Witness for C8 on a 3×3 buffer with an all-ones and an all-zeros
operand. -/
theorem bitBuffer_and_ones_zeros_witness :
    BitBuffer.and ⟨3, 3, 1, [170, 1]⟩ ⟨3, 3, 1, [255, 1]⟩ = .ok ⟨3, 3, 1, [170, 1]⟩ ∧
    BitBuffer.isEmpty ⟨3, 3, 1, [0, 0]⟩ = true := by
  have h := bitBuffer_and_ones_zeros ⟨3, 3, 1, [170, 1]⟩ ⟨3, 3, 1, [255, 1]⟩
    ⟨3, 3, 0, [0, 0]⟩ ⟨3, 3, 1, [0, 0]⟩
    (by decide) (by decide) rfl rfl rfl rfl (by decide) (by decide) (by decide)
  exact ⟨h.1, h.2 (by decide)⟩

/-- C10: for colors whose stored components are integers in `[0, 255]`
with each premultiplied channel at most the alpha, `blendOver` never
fails: every rounded component lies in `[0, 255]`, so the constructor's
range validation cannot fire. -/
theorem color_blendOver_total (src bg : Color)
    (hs : 0 ≤ src.pr ∧ src.pr ≤ src.pa ∧ 0 ≤ src.pg ∧ src.pg ≤ src.pa ∧
          0 ≤ src.pb ∧ src.pb ≤ src.pa ∧ 0 ≤ src.pa ∧ src.pa ≤ 255)
    (hbg : 0 ≤ bg.pr ∧ bg.pr ≤ bg.pa ∧ 0 ≤ bg.pg ∧ bg.pg ≤ bg.pa ∧
           0 ≤ bg.pb ∧ bg.pb ≤ bg.pa ∧ 0 ≤ bg.pa ∧ bg.pa ≤ 255) :
    (Color.blendOver src bg).isOk = true := by
  obtain ⟨hs1, hs2, hs3, hs4, hs5, hs6, hs7, hs8⟩ := hs
  obtain ⟨hb1, hb2, hb3, hb4, hb5, hb6, hb7, hb8⟩ := hbg
  by_cases hA : src.pa = 255
  · rw [blendOver_alpha_full hA]
    rfl
  by_cases h0 : src.pa = 0
  · rw [blendOver_transparent h0]
    rfl
  rw [blendOver_eq_create hA h0]
  rw [create_premul_ok (blend_channel_mem hs1 hs2 hb1 (le_trans hb2 hb8) hs8)
        (blend_channel_mem hs3 hs4 hb3 (le_trans hb4 hb8) hs8)
        (blend_channel_mem hs5 hs6 hb5 (le_trans hb6 hb8) hs8)
        (blend_channel_mem hs7 (le_refl src.pa) hb7 hb8 hs8)]
  rfl

/-- Witness for C10 at two concrete partially transparent colors. -/
theorem color_blendOver_total_witness :
    (Color.blendOver ⟨50, 60, 70, 128⟩ ⟨100, 50, 25, 128⟩).isOk = true :=
  color_blendOver_total ⟨50, 60, 70, 128⟩ ⟨100, 50, 25, 128⟩ (by decide) (by decide)

/-- C4 counterexample: the color stored premultiplied as `(255, 0, 0, 1)`
is constructible (the constructor validates each component against
`[0, 255]` only), the factor `1/2` is inside `[0, 1]`, and yet
`withGlobalAlpha` fails — with the component-range error, not the
factor error — because the straight red view `round(255·255/1) = 65025`
overflows the constructor's range check. -/
theorem color_withGlobalAlpha_cex :
    Color.create 255 0 0 1 true = .ok ⟨255, 0, 0, 1⟩ ∧
    ¬((1 / 2 : ℚ) < 0 ∨ 1 < (1 / 2 : ℚ)) ∧
    Color.withGlobalAlpha ⟨255, 0, 0, 1⟩ (1 / 2) =
      .error "Color components must be in range 0-255" := by
  refine ⟨?_, by norm_num, ?_⟩
  · unfold Color.create
    rw [if_neg (by norm_num), if_pos rfl]
    rw [jsRound_eq 255 255 (by norm_num) (by norm_num), jsRound_eq 0 0 (by norm_num) (by norm_num),
        jsRound_eq 1 1 (by norm_num) (by norm_num)]
  · unfold Color.withGlobalAlpha
    rw [if_neg (by norm_num)]
    show Color.create (Color.r ⟨255, 0, 0, 1⟩ : ℚ) (Color.g ⟨255, 0, 0, 1⟩ : ℚ)
      (Color.b ⟨255, 0, 0, 1⟩ : ℚ)
      ((jsRound ((Color.a ⟨255, 0, 0, 1⟩ : ℚ) * (1 / 2)) : ℤ) : ℚ) false =
      .error "Color components must be in range 0-255"
    have hr : Color.r ⟨255, 0, 0, 1⟩ = 65025 := by
      unfold Color.r
      rw [if_neg (by decide), if_neg (by decide)]
      exact jsRound_eq _ _ (by push_cast; norm_num) (by push_cast; norm_num)
    rw [hr]
    unfold Color.create
    rw [if_pos (Or.inr (Or.inl (by push_cast; norm_num)))]

/-- C4 (amended): restricted to colors whose premultiplied channels do
not exceed the alpha (as holds for any color built from straight
components), `withGlobalAlpha` fails with the factor-range error exactly
when the factor is outside `[0, 1]`, and otherwise re-premultiplies the
straight views with `newAlpha = round(straightAlpha * factor)` and
succeeds.  The spec's concrete scenario holds:
`(100, 150, 200, 255)` at factor `1/2` gives straight alpha `128` and
straight RGB within ±1 of `(100, 150, 200)`. -/
theorem color_withGlobalAlpha_amended (c : Color) (f : ℚ)
    (h1 : 0 ≤ c.pr) (h2 : c.pr ≤ c.pa) (h3 : 0 ≤ c.pg) (h4 : c.pg ≤ c.pa)
    (h5 : 0 ≤ c.pb) (h6 : c.pb ≤ c.pa) (h7 : 0 ≤ c.pa) (h8 : c.pa ≤ 255) :
    (Color.withGlobalAlpha c f = .error "Global alpha must be in range 0-1" ↔ (f < 0 ∨ 1 < f)) ∧
    (0 ≤ f → f ≤ 1 →
      Color.withGlobalAlpha c f =
        Color.create (c.r : ℚ) (c.g : ℚ) (c.b : ℚ) ((jsRound ((c.a : ℚ) * f) : ℤ) : ℚ) false ∧
      (Color.withGlobalAlpha c f).isOk = true) ∧
    (Color.create 100 150 200 255 false = .ok ⟨100, 150, 200, 255⟩ ∧
     Color.withGlobalAlpha ⟨100, 150, 200, 255⟩ (1 / 2) = .ok ⟨50, 75, 100, 128⟩ ∧
     Color.a ⟨50, 75, 100, 128⟩ = 128 ∧
     (Color.r ⟨50, 75, 100, 128⟩ - 100).natAbs ≤ 1 ∧
     (Color.g ⟨50, 75, 100, 128⟩ - 150).natAbs ≤ 1 ∧
     (Color.b ⟨50, 75, 100, 128⟩ - 200).natAbs ≤ 1) := by
  have hr_mem : 0 ≤ Color.r c ∧ Color.r c ≤ 255 := straight_view_mem h1 h2 h8
  have hg_mem : 0 ≤ Color.g c ∧ Color.g c ≤ 255 := straight_view_mem h3 h4 h8
  have hb_mem : 0 ≤ Color.b c ∧ Color.b c ≤ 255 := straight_view_mem h5 h6 h8
  have hmain : ∀ g : ℚ, 0 ≤ g → g ≤ 1 → (Color.withGlobalAlpha c g).isOk = true := by
    intro g hf0 hf1
    have ha_mem : 0 ≤ jsRound ((c.a : ℚ) * g) ∧ jsRound ((c.a : ℚ) * g) ≤ 255 := by
      apply jsRound_mem_of_bounds
      · exact mul_nonneg (by exact_mod_cast h7) hf0
      · have hpa' : (c.a : ℚ) ≤ 255 := by exact_mod_cast h8
        have hpa0 : (0 : ℚ) ≤ (c.a : ℚ) := by exact_mod_cast h7
        nlinarith
    unfold Color.withGlobalAlpha
    rw [if_neg (by rintro (h | h) <;> linarith)]
    show (Color.create (Color.r c : ℚ) (Color.g c : ℚ) (Color.b c : ℚ)
      ((jsRound ((Color.a c : ℚ) * g) : ℤ) : ℚ) false).isOk = true
    unfold Color.create
    rw [if_neg (not_component_out_of_range hr_mem hg_mem hb_mem ha_mem)]
    rfl
  refine ⟨⟨fun herr => ?_, fun h => ?_⟩, fun hf0 hf1 => ⟨?_, hmain f hf0 hf1⟩, ?_, ?_, rfl, ?_, ?_, ?_⟩
  · by_contra hout
    push_neg at hout
    have hok := hmain f hout.1 hout.2
    rw [herr] at hok
    simp [Except.isOk, Except.toBool] at hok
  · unfold Color.withGlobalAlpha
    rw [if_pos h]
  · unfold Color.withGlobalAlpha
    rw [if_neg (by rintro (h | h) <;> linarith)]
  · rw [create_straight_eval (by norm_num)]
    rw [jsRound_eq _ 100 (by norm_num) (by norm_num), jsRound_eq _ 150 (by norm_num) (by norm_num),
        jsRound_eq _ 200 (by norm_num) (by norm_num), jsRound_eq _ 255 (by norm_num) (by norm_num)]
  · unfold Color.withGlobalAlpha
    rw [if_neg (by norm_num)]
    show Color.create (Color.r ⟨100, 150, 200, 255⟩ : ℚ) (Color.g ⟨100, 150, 200, 255⟩ : ℚ)
      (Color.b ⟨100, 150, 200, 255⟩ : ℚ)
      ((jsRound ((Color.a ⟨100, 150, 200, 255⟩ : ℚ) * (1 / 2)) : ℤ) : ℚ) false =
      .ok ⟨50, 75, 100, 128⟩
    have hr : Color.r ⟨100, 150, 200, 255⟩ = 100 := by
      unfold Color.r
      rw [if_neg (by decide), if_pos rfl]
    have hg : Color.g ⟨100, 150, 200, 255⟩ = 150 := by
      unfold Color.g
      rw [if_neg (by decide), if_pos rfl]
    have hb : Color.b ⟨100, 150, 200, 255⟩ = 200 := by
      unfold Color.b
      rw [if_neg (by decide), if_pos rfl]
    have ha : jsRound ((Color.a ⟨100, 150, 200, 255⟩ : ℚ) * (1 / 2)) = 128 :=
      jsRound_eq _ _ (by norm_num [Color.a]) (by norm_num [Color.a])
    rw [hr, hg, hb, ha]
    rw [create_straight_eval (by push_cast; norm_num)]
    rw [jsRound_eq _ 50 (by push_cast; norm_num) (by push_cast; norm_num),
        jsRound_eq _ 75 (by push_cast; norm_num) (by push_cast; norm_num),
        jsRound_eq _ 100 (by push_cast; norm_num) (by push_cast; norm_num),
        jsRound_eq _ 128 (by push_cast; norm_num) (by push_cast; norm_num)]
  · have hr : Color.r ⟨50, 75, 100, 128⟩ = 100 := by
      unfold Color.r
      rw [if_neg (by decide), if_neg (by decide)]
      exact jsRound_eq _ _ (by push_cast; norm_num) (by push_cast; norm_num)
    rw [hr]
    decide
  · have hg : Color.g ⟨50, 75, 100, 128⟩ = 149 := by
      unfold Color.g
      rw [if_neg (by decide), if_neg (by decide)]
      exact jsRound_eq _ _ (by push_cast; norm_num) (by push_cast; norm_num)
    rw [hg]
    decide
  · have hb : Color.b ⟨50, 75, 100, 128⟩ = 199 := by
      unfold Color.b
      rw [if_neg (by decide), if_neg (by decide)]
      exact jsRound_eq _ _ (by push_cast; norm_num) (by push_cast; norm_num)
    rw [hb]
    decide

/-- Witness for C4 (amended) at the color stored as `(50, 75, 100, 128)`
and factor `1/2`. -/
theorem color_withGlobalAlpha_amended_witness :
    (Color.withGlobalAlpha ⟨50, 75, 100, 128⟩ (1 / 2) =
        .error "Global alpha must be in range 0-1" ↔ ((1 / 2 : ℚ) < 0 ∨ 1 < (1 / 2 : ℚ))) ∧
    Color.withGlobalAlpha ⟨50, 75, 100, 128⟩ (1 / 2) =
      Color.create (Color.r ⟨50, 75, 100, 128⟩ : ℚ) (Color.g ⟨50, 75, 100, 128⟩ : ℚ)
        (Color.b ⟨50, 75, 100, 128⟩ : ℚ)
        ((jsRound ((Color.a ⟨50, 75, 100, 128⟩ : ℚ) * (1 / 2)) : ℤ) : ℚ) false ∧
    (Color.withGlobalAlpha ⟨50, 75, 100, 128⟩ (1 / 2)).isOk = true := by
  have h := color_withGlobalAlpha_amended ⟨50, 75, 100, 128⟩ (1 / 2)
    (by decide) (by decide) (by decide) (by decide) (by decide) (by decide) (by decide) (by decide)
  exact ⟨h.1, (h.2.1 (by norm_num) (by norm_num)).1, (h.2.1 (by norm_num) (by norm_num)).2⟩

end SWCanvas
